import Mathlib

/-!
Verification of the five-stage blog-generation pipeline in
`src/reddit_blog_app.py` (classes `BaseAgent` and `BlogGenerator`).

The embedding models:
  * Python JSON values and `json.loads` (used by `MetricAgent.process`);
  * Python `dict` with string keys, insertion order, and `update` semantics
    (the `PipelineState` threaded through the run);
  * Python `repr`/`str` of strings and of objects loaded from JSON (the
    pipeline interpolates state values into f-string prompts);
  * `textwrap.dedent` (used by `FormatAgent.process`);
  * `BaseAgent.request_api` over an abstract HTTP outcome;
  * the five agents and `BlogGenerator.run_analysis`, parameterised by the
    model-response function `gen : String → String` (the response text the
    local model returns for a given prompt), which is how the spec stubs
    the `ModelClient`.
-/

set_option autoImplicit false

namespace RedditBlog

/-- Python values produced by `json.loads`.  `fnum` keeps the source token of
a non-integer numeric literal (floats are carried symbolically; no claim
depends on float arithmetic). -/
inductive Json where
  | null
  | bool (b : Bool)
  | num (n : Int)
  | fnum (raw : String)
  | str (s : String)
  | arr (elems : List Json)
  | obj (members : List (String × Json))
  deriving Repr

/-- Insert into an association list with Python-dict semantics: an existing
key keeps its position and gets the new value; a new key is appended. -/
def assocSet {α : Type} : List (String × α) → String → α → List (String × α)
  | [], k, v => [(k, v)]
  | (k0, v0) :: rest, k, v =>
    if k0 = k then (k0, v) :: rest else (k0, v0) :: assocSet rest k v

/-- First value bound to a key in an association list (keys are unique in
dicts built via `assocSet`, so first = only). -/
def assocGet {α : Type} : List (String × α) → String → Option α
  | [], _ => none
  | (k0, v0) :: rest, k => if k0 = k then some v0 else assocGet rest k

/-- Python `d.get(k, dflt)`. -/
def assocGetD {α : Type} (d : List (String × α)) (k : String) (dflt : α) : α :=
  (assocGet d k).getD dflt

/-! ### A model of Python `json.loads`

Recursive-descent parser over the character list, with a fuel argument for
termination; the fuel chosen at top level is generous enough that it is
never exhausted on an input of the given length (each pair of fuel ticks
consumes at least one character). -/

/-- The four whitespace characters skipped by Python json. -/
def jsonWs (c : Char) : Bool :=
  c = ' ' || c = '\t' || c = '\n' || c = '\r'

def skipWs : List Char → List Char
  | [] => []
  | c :: cs => if jsonWs c then skipWs cs else c :: cs

/-- Consume an expected literal character sequence. -/
def dropLit : List Char → List Char → Option (List Char)
  | [], cs => some cs
  | p :: ps, c :: cs => if c = p then dropLit ps cs else none
  | _ :: _, [] => none

def hexDigitVal (c : Char) : Option Nat :=
  if c.isDigit then some (c.toNat - 48)
  else if 97 ≤ c.toNat ∧ c.toNat ≤ 102 then some (c.toNat - 87)
  else if 65 ≤ c.toNat ∧ c.toNat ≤ 70 then some (c.toNat - 55)
  else none

/-- Stand-in for a lone UTF-16 surrogate kept by Python json in a decoded
string: a Lean `Char` cannot hold a surrogate code point, so the model
renders it as the replacement character U+FFFD.  Only the decoded value at
such inputs differs from Python; the parse-success boundary is the same
(Python also accepts lone surrogate escapes). -/
def loneSurrogate : Char := Char.ofNat 0xFFFD

/-- Parse the body of a JSON string after the opening quote: returns the
decoded string and the characters after the closing quote.  As in Python
strict mode, a raw control character (below 0x20) inside the string is an
error, while escaped ones are fine.  A high-surrogate escape followed by a
low-surrogate escape is recombined into one code point, as Python does; a
high surrogate followed by a malformed uXXXX escape is an error; a lone
surrogate escape is accepted (see `loneSurrogate`). -/
def parseStringRest : Nat → List Char → List Char → Option (String × List Char)
  | 0, _, _ => none
  | _ + 1, [], _ => none
  | fuel + 1, c :: cs, acc =>
    if c = '"' then some (String.mk acc, cs)
    else if c = '\\' then
      match cs with
      | [] => none
      | e :: cs2 =>
        if e = '"' then parseStringRest fuel cs2 (acc ++ ['"'])
        else if e = '\\' then parseStringRest fuel cs2 (acc ++ ['\\'])
        else if e = '/' then parseStringRest fuel cs2 (acc ++ ['/'])
        else if e = 'n' then parseStringRest fuel cs2 (acc ++ ['\n'])
        else if e = 't' then parseStringRest fuel cs2 (acc ++ ['\t'])
        else if e = 'r' then parseStringRest fuel cs2 (acc ++ ['\r'])
        else if e = 'b' then parseStringRest fuel cs2 (acc ++ [Char.ofNat 8])
        else if e = 'f' then parseStringRest fuel cs2 (acc ++ [Char.ofNat 12])
        else if e = 'u' then
          match cs2 with
          | h1 :: h2 :: h3 :: h4 :: cs3 =>
            match hexDigitVal h1, hexDigitVal h2, hexDigitVal h3, hexDigitVal h4 with
            | some a, some b, some c3, some d =>
              let n1 := ((a * 16 + b) * 16 + c3) * 16 + d
              if 0xD800 ≤ n1 ∧ n1 ≤ 0xDBFF then
                match cs3 with
                | '\\' :: 'u' :: rest2 =>
                  match rest2 with
                  | g1 :: g2 :: g3 :: g4 :: cs4 =>
                    match hexDigitVal g1, hexDigitVal g2, hexDigitVal g3, hexDigitVal g4 with
                    | some a2, some b2, some c4, some d2 =>
                      let n2 := ((a2 * 16 + b2) * 16 + c4) * 16 + d2
                      if 0xDC00 ≤ n2 ∧ n2 ≤ 0xDFFF then
                        parseStringRest fuel cs4
                          (acc ++ [Char.ofNat (0x10000 + (n1 - 0xD800) * 0x400 + (n2 - 0xDC00))])
                      else
                        -- a valid uXXXX that is not a low surrogate: the high
                        -- surrogate stays lone and the escape is reread normally
                        parseStringRest fuel ('\\' :: 'u' :: rest2) (acc ++ [loneSurrogate])
                    | _, _, _, _ => none
                  | _ => none
                | _ => parseStringRest fuel cs3 (acc ++ [loneSurrogate])
              else if 0xDC00 ≤ n1 ∧ n1 ≤ 0xDFFF then
                parseStringRest fuel cs3 (acc ++ [loneSurrogate])
              else
                parseStringRest fuel cs3 (acc ++ [Char.ofNat n1])
            | _, _, _, _ => none
          | _ => none
        else none
    else if c.toNat < 32 then none
    else parseStringRest fuel cs (acc ++ [c])

def takeDigits : List Char → List Char × List Char
  | [] => ([], [])
  | c :: cs =>
    if c.isDigit then
      let p := takeDigits cs
      (c :: p.1, p.2)
    else ([], c :: cs)

def digitsToNat (ds : List Char) : Nat :=
  ds.foldl (fun n c => n * 10 + (c.toNat - 48)) 0

/-- Exponent part of a numeric literal; `some ([], cs)` when absent. -/
def parseExpPart : List Char → Option (List Char × List Char)
  | [] => some ([], [])
  | c :: rest =>
    if c = 'e' ∨ c = 'E' then
      match rest with
      | [] => none
      | s :: r2 =>
        if s = '+' ∨ s = '-' then
          let p := takeDigits r2
          if p.1.isEmpty then none else some (c :: s :: p.1, p.2)
        else
          let p := takeDigits rest
          if p.1.isEmpty then none else some (c :: p.1, p.2)
    else some ([], c :: rest)

/-- Parse a JSON numeric literal (first char is a digit or a minus sign not
followed by Infinity).  Integers become `Json.num`; literals with a fraction
or exponent keep their token as `Json.fnum`. -/
def parseNumber (cs : List Char) : Option (Json × List Char) :=
  let p0 : Bool × List Char :=
    match cs with
    | '-' :: rest => (true, rest)
    | _ => (false, cs)
  match p0.2 with
  | [] => none
  | c :: rest =>
    if ¬ c.isDigit then none
    else
      -- JSON: the integer part is a single 0, or a nonzero digit then digits
      let ip : List Char × List Char :=
        if c = '0' then ([c], rest)
        else
          let p := takeDigits rest
          (c :: p.1, p.2)
      match ip.2 with
      | '.' :: r =>
        let fp := takeDigits r
        if fp.1.isEmpty then none
        else
          match parseExpPart fp.2 with
          | none => none
          | some (eChars, rest3) =>
            some (Json.fnum (String.mk ((if p0.1 then ['-'] else []) ++ ip.1 ++ '.' :: fp.1 ++ eChars)), rest3)
      | _ =>
        match parseExpPart ip.2 with
        | none => none
        | some ([], _) =>
          some (Json.num (if p0.1 then -(Int.ofNat (digitsToNat ip.1)) else Int.ofNat (digitsToNat ip.1)), ip.2)
        | some (eChars, rest3) =>
          some (Json.fnum (String.mk ((if p0.1 then ['-'] else []) ++ ip.1 ++ eChars)), rest3)

mutual

/-- Parse one JSON value (leading whitespace allowed); returns the value and
the unconsumed characters. -/
def parseVal : Nat → List Char → Option (Json × List Char)
  | 0, _ => none
  | fuel + 1, cs =>
    match skipWs cs with
    | [] => none
    | c :: rest =>
      if c = '{' then
        match skipWs rest with
        | '}' :: rest2 => some (Json.obj [], rest2)
        | rest2 => parseMembers fuel rest2 []
      else if c = '[' then
        match skipWs rest with
        | ']' :: rest2 => some (Json.arr [], rest2)
        | rest2 => parseElems fuel rest2 []
      else if c = '"' then
        match parseStringRest (rest.length + 1) rest [] with
        | some (s, rest2) => some (Json.str s, rest2)
        | none => none
      else if c = 't' then
        match dropLit ['r', 'u', 'e'] rest with
        | some r => some (Json.bool true, r)
        | none => none
      else if c = 'f' then
        match dropLit ['a', 'l', 's', 'e'] rest with
        | some r => some (Json.bool false, r)
        | none => none
      else if c = 'n' then
        match dropLit ['u', 'l', 'l'] rest with
        | some r => some (Json.null, r)
        | none => none
      else if c = 'N' then
        -- Python json accepts the non-standard literals NaN and Infinity
        match dropLit ['a', 'N'] rest with
        | some r => some (Json.fnum "nan", r)
        | none => none
      else if c = 'I' then
        match dropLit ['n', 'f', 'i', 'n', 'i', 't', 'y'] rest with
        | some r => some (Json.fnum "inf", r)
        | none => none
      else if c = '-' then
        match dropLit ['I', 'n', 'f', 'i', 'n', 'i', 't', 'y'] rest with
        | some r => some (Json.fnum "-inf", r)
        | none => parseNumber (c :: rest)
      else if c.isDigit then parseNumber (c :: rest)
      else none

/-- Members of an object, positioned at the start of a key string; duplicate
keys collapse with last-value-wins, as when Python builds the dict. -/
def parseMembers : Nat → List Char → List (String × Json) → Option (Json × List Char)
  | 0, _, _ => none
  | fuel + 1, cs, acc =>
    match skipWs cs with
    | '"' :: rest =>
      match parseStringRest (rest.length + 1) rest [] with
      | none => none
      | some (k, rest2) =>
        match skipWs rest2 with
        | ':' :: rest3 =>
          match parseVal fuel rest3 with
          | none => none
          | some (v, rest4) =>
            match skipWs rest4 with
            | ',' :: rest5 => parseMembers fuel rest5 (assocSet acc k v)
            | '}' :: rest5 => some (Json.obj (assocSet acc k v), rest5)
            | _ => none
        | _ => none
    | _ => none

/-- Elements of an array, positioned at the start of a value. -/
def parseElems : Nat → List Char → List Json → Option (Json × List Char)
  | 0, _, _ => none
  | fuel + 1, cs, acc =>
    match parseVal fuel cs with
    | none => none
    | some (v, rest) =>
      match skipWs rest with
      | ',' :: rest2 => parseElems fuel rest2 (acc ++ [v])
      | ']' :: rest2 => some (Json.arr (acc ++ [v]), rest2)
      | _ => none

end

/-- Model of Python `json.loads`: one complete JSON document, surrounding
whitespace allowed, anything else is a `JSONDecodeError` (`none`). -/
def json_loads (s : String) : Option Json :=
  match parseVal (4 * s.length + 8) s.data with
  | some (v, rest) => if skipWs rest = [] then some v else none
  | none => none

/-! ### Python `repr` and `str`

The pipeline interpolates state values into f-string prompts, so the
embedding needs Python text conversion: `str` on a `str` is the identity,
`str` on a `dict`/`list`/`int`/`bool`/`None` equals `repr`. -/

def hexChar (n : Nat) : Char :=
  if n < 10 then Char.ofNat (48 + n) else Char.ofNat (87 + n)

def listContains (cs : List Char) (c : Char) : Bool :=
  cs.any (fun x => x == c)

/-- One character of Python `repr` of a string, given the chosen quote.
Escaped with a two-digit hex escape: the ASCII control characters, DEL, the
C1 control block 0x80-0x9F, the no-break space 0xA0 and the soft hyphen
0xAD, exactly as Python does.  Characters above 0xAD that Python would
escape because the Unicode database marks them unprintable (such as the
zero-width space) are outside the model and kept literal; theorems that
interpolate a repr into a prompt therefore restrict the content to ASCII,
where this function agrees with Python exactly. -/
def pyReprEscapeChar (q : Char) (c : Char) : List Char :=
  if c = '\\' then ['\\', '\\']
  else if c = q then ['\\', q]
  else if c = '\n' then ['\\', 'n']
  else if c = '\r' then ['\\', 'r']
  else if c = '\t' then ['\\', 't']
  else if c.toNat < 32 ∨ c.toNat = 127 ∨ (128 ≤ c.toNat ∧ c.toNat ≤ 160) ∨ c.toNat = 173 then
    ['\\', 'x', hexChar (c.toNat / 16), hexChar (c.toNat % 16)]
  else [c]

/-- Python `repr` of a string: single quotes, unless the string holds a
single quote and no double quote. -/
def pyReprStr (s : String) : String :=
  let cs := s.data
  let q : Char :=
    if listContains cs (Char.ofNat 39) && !listContains cs '"' then '"' else Char.ofNat 39
  String.mk (q :: ((cs.map (pyReprEscapeChar q)).flatten ++ [q]))

def joinComma : List String → String
  | [] => ""
  | [x] => x
  | x :: y :: xs => x ++ ", " ++ joinComma (y :: xs)

mutual

/-- Python `repr` of an object loaded from JSON.  A float is rendered as its
kept source token (Python would normalise the float; no claim interpolates a
float into a prompt). -/
def pyReprJson : Json → String
  | .null => "None"
  | .bool true => "True"
  | .bool false => "False"
  | .num n => toString n
  | .fnum raw => raw
  | .str s => pyReprStr s
  | .arr xs => "[" ++ pyReprJsonList xs ++ "]"
  | .obj kvs => "\x7b" ++ pyReprJsonMembers kvs ++ "\x7d"

def pyReprJsonList : List Json → String
  | [] => ""
  | [x] => pyReprJson x
  | x :: y :: xs => pyReprJson x ++ ", " ++ pyReprJsonList (y :: xs)

def pyReprJsonMembers : List (String × Json) → String
  | [] => ""
  | [kv] => pyReprStr kv.1 ++ ": " ++ pyReprJson kv.2
  | kv :: kv2 :: xs =>
    pyReprStr kv.1 ++ ": " ++ pyReprJson kv.2 ++ ", " ++ pyReprJsonMembers (kv2 :: xs)

end

/-! ### The PipelineState: a Python dict from field names to values -/

/-- A value held in the pipeline state: agents store strings, except that
`MetricAgent` stores the object returned by `json.loads`. -/
inductive Value where
  | str (s : String)
  | json (j : Json)
  deriving Repr

/-- The `PipelineState`: a Python dict with string keys, in insertion
order. -/
def PyDict := List (String × Value)

/-- The key list of the state, in insertion order. -/
def keys (d : PyDict) : List String := d.map Prod.fst

/-- Python `state.update(u)`: merge `u` into the dict left to right. -/
def pyUpdate (d : PyDict) (u : PyDict) : PyDict :=
  u.foldl (fun acc kv => assocSet acc kv.1 kv.2) d

/-- Python `str` (= `repr`) of a value in an f-string position. -/
def pyReprValue : Value → String
  | .str s => pyReprStr s
  | .json j => pyReprJson j

/-- Python `str` of a value: the string itself for `str`, `repr` for loaded
JSON objects. -/
def pyStrValue : Value → String
  | .str s => s
  | .json j => pyReprJson j

/-- Python `str` of the state dict (what `f"...: \x7bstate\x7d"` inserts). -/
def pyStrDict (d : PyDict) : String :=
  "\x7b" ++ joinComma (d.map fun kv => pyReprStr kv.1 ++ ": " ++ pyReprValue kv.2) ++ "\x7d"

/-! ### `textwrap.dedent` -/

def isWsOnlyLine (l : String) : Bool :=
  !l.isEmpty && l.data.all (fun c => c = ' ' || c = '\t')

def lineIndent (l : String) : List Char :=
  l.data.takeWhile (fun c => c = ' ' || c = '\t')

def commonPrefix : List Char → List Char → List Char
  | [], _ => []
  | _ :: _, [] => []
  | a :: as, b :: bs => if a = b then a :: commonPrefix as bs else []

/-- Model of `textwrap.dedent`: lines of only blanks/tabs are emptied, the
longest common blank/tab prefix of the remaining lines is computed, and that
margin is removed from every line that starts with it. -/
def dedent (text : String) : String :=
  let lines := (text.splitOn "\n").map (fun l => if isWsOnlyLine l then "" else l)
  let contentLines := lines.filter (fun l => !l.isEmpty)
  let margin : List Char :=
    match contentLines with
    | [] => []
    | l :: ls => ls.foldl (fun m l2 => commonPrefix m (lineIndent l2)) (lineIndent l)
  String.intercalate "\n"
    (lines.map (fun l =>
      if (String.mk margin).isPrefixOf l then l.drop margin.length else l))

/-! ### The five agents (`BlogGenerator` inner classes)

Each `process` is parameterised by the model-response function
`gen : String → String` standing for `BaseAgent.request_api` restricted to
its string results — the level at which the spec stubs the `ModelClient`.
`MetricAgent.process` in the source returns a one-key dict in each of its
three branches; the embedding factors the branch into the value of that one
key, which is the same dict. -/

/-- Prompt of `ExpandAgent.process`: the source interpolates its `content`
parameter, which `run_analysis` binds to the whole state dict. -/
def expandPrompt (state : PyDict) : String :=
  "Expand: " ++ pyStrDict state

def analyzePrompt (state : PyDict) : String :=
  "Analyze: " ++ pyStrValue (assocGetD state "expanded" (Value.str ""))

def metricPrompt (state : PyDict) : String :=
  "Extract Metrics: " ++ pyStrValue (assocGetD state "analysis" (Value.str ""))

def finalPrompt (state : PyDict) : String :=
  "Generate Blog: " ++ pyStrValue (assocGetD state "metrics" (Value.str ""))

/-- The f-string template inside `FormatAgent.process`, before `dedent`;
every template line carries the 12-blank indentation of the source. -/
def formatTemplate (blog_content : String) : String :=
  "\n            Transform this raw content into a properly formatted Markdown blog post. Use these guidelines:\n            - Start with a # Heading\n            - Use ## and ### subheadings to organize content\n            - Add bullet points for lists\n            - Use **bold** for key metrics\n            - Include --- for section dividers\n            - Maintain original insights but improve readability\n            \n            Content to format:\n            "
    ++ blog_content ++ "\n            "

def formatPrompt (state : PyDict) : String :=
  dedent (formatTemplate (pyStrValue (assocGetD state "final_blog" (Value.str ""))))

def ExpandAgent.process (gen : String → String) (content : PyDict) : PyDict :=
  [("expanded", Value.str (gen (expandPrompt content)))]

def AnalyzeAgent.process (gen : String → String) (state : PyDict) : PyDict :=
  [("analysis", Value.str (gen (analyzePrompt state)))]

/-- `MetricAgent.process`: an empty response or a `json.loads` failure
degrades the metrics to an empty dict; a successful parse is stored as is. -/
def MetricAgent.process (gen : String → String) (state : PyDict) : PyDict :=
  [("metrics", Value.json (
    if gen (metricPrompt state) = "" then Json.obj []
    else
      match json_loads (gen (metricPrompt state)) with
      | some v => v
      | none => Json.obj []))]

def FinalAgent.process (gen : String → String) (state : PyDict) : PyDict :=
  [("final_blog", Value.str (gen (finalPrompt state)))]

def FormatAgent.process (gen : String → String) (state : PyDict) : PyDict :=
  [("final_blog", Value.str (gen (formatPrompt state)))]

/-! ### The stage graph and its topological order -/

/-- The edge list passed to `nx.DiGraph` in `BlogGenerator.__init__`. -/
def workflowEdges : List (String × String) :=
  [("Expand", "Analyze"), ("Analyze", "Metric"), ("Metric", "Final"), ("Final", "Format")]

/-- Nodes of the graph in first-encounter order, as `nx.DiGraph` stores
them. -/
def graphNodes (edges : List (String × String)) : List String :=
  edges.foldl (fun acc e =>
    let acc1 := if e.1 ∈ acc then acc else acc ++ [e.1]
    if e.2 ∈ acc1 then acc1 else acc1 ++ [e.2]) []

/-- Remove the first occurrence of a node. -/
def removeFirst : List String → String → List String
  | [], _ => []
  | x :: xs, n => if x = n then xs else x :: removeFirst xs n

/-- Kahn-style topological sort: repeatedly emit the first remaining node
with no incoming edge from a remaining node.  `nx.topological_sort` is also
Kahn-based; on this graph every valid strategy yields the same order, which
the uniqueness theorem below makes precise. -/
def topoSortAux : Nat → List (String × String) → List String → List String
  | 0, _, _ => []
  | fuel + 1, edges, remaining =>
    match remaining.find?
        (fun n => !(remaining.any (fun m => edges.any (fun e => decide (e.1 = m ∧ e.2 = n))))) with
    | none => []
    | some n => n :: topoSortAux fuel edges (removeFirst remaining n)

def topologicalSort (edges : List (String × String)) : List String :=
  topoSortAux (graphNodes edges).length edges (graphNodes edges)

/-- Position of a node in an order (length of the order if absent). -/
def idxOf : List String → String → Nat
  | [], _ => 0
  | x :: xs, n => if x = n then 0 else idxOf xs n + 1

/-- `ord` is a topological order of the graph: a permutation of the node set
in which every edge points forward. -/
def isTopoOrder (edges : List (String × String)) (ord : List String) : Prop :=
  ord.Perm (graphNodes edges) ∧ ∀ e ∈ edges, idxOf ord e.1 < idxOf ord e.2

/-- All insertions of an element into a list, used to enumerate
permutations in a form the kernel can evaluate. -/
def insertEverywhere {α : Type} (a : α) : List α → List (List α)
  | [] => [[a]]
  | b :: bs => (a :: b :: bs) :: (insertEverywhere a bs).map (fun l => b :: l)

/-- All permutations of a list. -/
def allPerms {α : Type} : List α → List (List α)
  | [] => [[]]
  | a :: as => ((allPerms as).map (insertEverywhere a)).flatten

/-! ### `BlogGenerator` and `run_analysis` -/

/-- The data a `BlogGenerator` object holds across calls: its workflow
graph.  (The agents in `self.agents` hold only the constant endpoint and
model strings of `BaseAgent.__init__` and are never mutated.) -/
structure BlogGenerator where
  workflow : List (String × String)

def BlogGenerator.init : BlogGenerator :=
  ⟨workflowEdges⟩

/-- Dispatch `self.agents[node].process(state)`. -/
def agentProcess (gen : String → String) (node : String) (state : PyDict) : PyDict :=
  if node = "Expand" then ExpandAgent.process gen state
  else if node = "Analyze" then AnalyzeAgent.process gen state
  else if node = "Metric" then MetricAgent.process gen state
  else if node = "Final" then FinalAgent.process gen state
  else if node = "Format" then FormatAgent.process gen state
  else []

/-- One loop iteration of `run_analysis`:
`state.update(self.agents[node].process(state))`. -/
def stepStage (gen : String → String) (state : PyDict) (node : String) : PyDict :=
  pyUpdate state (agentProcess gen node state)

/-- `BlogGenerator.run_analysis`: build the fresh initial state, walk the
topological order, return the final state.  The generator object is returned
unchanged alongside, because the method reads `self` but never writes it. -/
def run_analysis (g : BlogGenerator) (gen : String → String) (content : String) :
    BlogGenerator × PyDict :=
  (g, (topologicalSort g.workflow).foldl (stepStage gen) [("raw_content", Value.str content)])

/-- The states visited after the initial one, in execution order (a scanl
of `stepStage` kept structural so proofs can unfold it). -/
def scanlStates (gen : String → String) (state : PyDict) : List String → List PyDict
  | [] => [state]
  | n :: ns => state :: scanlStates gen (stepStage gen state n) ns

/-- The successive states of one run: initial state followed by the state
after each stage. -/
def runTrace (gen : String → String) (content : String) : List PyDict :=
  scanlStates gen [("raw_content", Value.str content)]
    (topologicalSort BlogGenerator.init.workflow)

/-! ### `BaseAgent.request_api` over an abstract HTTP outcome -/

/-- What `response.json()` yields: a raising call (non-JSON body) or a
parsed payload. -/
inductive HttpBody where
  | invalid
  | val (j : Json)

/-- One `requests.post` interaction: a raised transport exception, or a
response with a status code and a body. -/
inductive HttpOutcome where
  | exn
  | resp (status : Nat) (body : HttpBody)

/-- What `request_api` hands back to a caller: plain text, or the structured
fallback (the whole payload, or a non-string `response` field). -/
inductive ApiResult where
  | str (s : String)
  | json (j : Json)
  deriving Repr

/-- `BaseAgent.request_api`.  Branches, in source order: an exception from
`requests.post` is caught and degrades to `""`; a status other than 200
returns `""`; a body that fails to parse raises inside the `try` and
degrades to `""`; `json_response.get` on a non-dict payload raises
`AttributeError`, also caught, degrading to `""`; otherwise the `response`
field if present (the object itself when not a string), else the whole
payload. -/
def request_api : HttpOutcome → ApiResult
  | .exn => .str ""
  | .resp status body =>
    if status ≠ 200 then .str ""
    else
      match body with
      | .invalid => .str ""
      | .val (Json.obj kvs) =>
        match assocGet kvs "response" with
        | some (Json.str s) => .str s
        | some v => .json v
        | none => .json (Json.obj kvs)
      | .val _ => .str ""

/-! ### Substring test used to state the C6 counterexample -/

def prefixB : List Char → List Char → Bool
  | [], _ => true
  | _ :: _, [] => false
  | p :: ps, c :: cs => p = c && prefixB ps cs

def infixB : List Char → List Char → Bool
  | pat, [] => prefixB pat []
  | pat, c :: rest => prefixB pat (c :: rest) || infixB pat rest

/-- Whether `pat` occurs contiguously inside `s`. -/
def strContains (s pat : String) : Bool :=
  infixB pat.data s.data

/-! ## Theorems -/

/-- Claim C1: for every input string (and every model response function),
`BlogGenerator.run_analysis` returns a `PipelineState` whose key list is
exactly `raw_content`, `expanded`, `analysis`, `metrics`, `final_blog` — it
never returns a partial result missing the key of an earlier stage. -/
theorem run_analysis_state_has_all_five_keys (gen : String → String) (content : String) :
    keys (run_analysis BlogGenerator.init gen content).2 =
      ["raw_content", "expanded", "analysis", "metrics", "final_blog"] := rfl

/-- Claim C5: if the model call returns the empty string on every
invocation, `run_analysis` completes (it is a total function of the
embedding) and the final state has `metrics == \x7b\x7d` and
`final_blog == ""`. -/
theorem run_analysis_all_empty_model_responses (content : String) :
    assocGet (run_analysis BlogGenerator.init (fun _ => "") content).2 "metrics"
        = some (Value.json (Json.obj [])) ∧
    assocGet (run_analysis BlogGenerator.init (fun _ => "") content).2 "final_blog"
        = some (Value.str "") :=
  ⟨rfl, rfl⟩

lemma mem_insertEverywhere {α : Type} (a : α) (u v : List α) :
    u ++ a :: v ∈ insertEverywhere a (u ++ v) := by
  induction u with
  | nil => cases v <;> simp [insertEverywhere]
  | cons b u ih =>
    simp only [List.cons_append, insertEverywhere, List.mem_cons]
    exact Or.inr (List.mem_map.mpr ⟨u ++ a :: v, ih, rfl⟩)

/-- Every permutation of `l` appears in `allPerms l`. -/
lemma perm_mem_allPerms {α : Type} : ∀ {l₂ l₁ : List α}, l₁.Perm l₂ → l₁ ∈ allPerms l₂ := by
  intro l₂
  induction l₂ with
  | nil =>
    intro l₁ h
    simp [allPerms, List.perm_nil.mp h]
  | cons a as ih =>
    intro l₁ h
    have ha : a ∈ l₁ := h.mem_iff.mpr (List.mem_cons_self a as)
    obtain ⟨u, v, rfl⟩ := List.append_of_mem ha
    have h2 : (u ++ v).Perm as := (List.perm_middle.symm.trans h).cons_inv
    exact List.mem_flatten.mpr
      ⟨insertEverywhere a (u ++ v), List.mem_map_of_mem _ (ih h2), mem_insertEverywhere a u v⟩

set_option maxRecDepth 8192 in
/-- Claim C4: the workflow graph admits exactly one topological order — the
chain Expand, Analyze, Metric, Final, Format — and the order the runner
executes (the `topologicalSort` of the workflow that `run_analysis` folds
over) is that chain. -/
theorem execution_order_is_unique_chain :
    topologicalSort BlogGenerator.init.workflow
        = ["Expand", "Analyze", "Metric", "Final", "Format"] ∧
    isTopoOrder workflowEdges ["Expand", "Analyze", "Metric", "Final", "Format"] ∧
    ∀ ord, isTopoOrder workflowEdges ord
        → ord = ["Expand", "Analyze", "Metric", "Final", "Format"] := by
  refine ⟨rfl, ⟨List.Perm.refl _, by decide⟩, ?_⟩
  intro ord h
  have hmem : ord ∈ allPerms (graphNodes workflowEdges) := perm_mem_allPerms h.1
  have hall : ∀ l ∈ allPerms (graphNodes workflowEdges),
      (∀ e ∈ workflowEdges, idxOf l e.1 < idxOf l e.2)
        → l = ["Expand", "Analyze", "Metric", "Final", "Format"] := by decide
  exact hall ord hmem h.2

/-- Witness for C4: the chain itself satisfies `isTopoOrder`, and the
uniqueness part applied to it is discharged concretely. -/
theorem execution_order_is_unique_chain_witness :
    isTopoOrder workflowEdges ["Expand", "Analyze", "Metric", "Final", "Format"] ∧
    (["Expand", "Analyze", "Metric", "Final", "Format"] : List String)
      = ["Expand", "Analyze", "Metric", "Final", "Format"] :=
  ⟨⟨List.Perm.refl _, by decide⟩,
    execution_order_is_unique_chain.2.2 _ ⟨List.Perm.refl _, by decide⟩⟩

/-- Claim C6, counterexample: with the echoing model stub and raw content
containing a newline, the `expanded` field is the echo of the repr of the
whole state dict, in which the raw content does not occur at all (its
newline is escaped by repr) — so `expanded` does not contain
"ECHO:Expand:" followed by the raw content. -/
theorem expand_prompt_counterexample :
    assocGet (run_analysis BlogGenerator.init (fun p => "ECHO:" ++ p) "A\nB").2 "expanded"
        = some (Value.str "ECHO:Expand: \x7b\x27raw_content\x27: \x27A\\nB\x27\x7d") ∧
    strContains "ECHO:Expand: \x7b\x27raw_content\x27: \x27A\\nB\x27\x7d" "A\nB" = false :=
  ⟨rfl, rfl⟩

/-- Claim C6 as amended: the Expand prompt interpolates the whole state dict
(at that point holding only `raw_content`), so with the echo stub the
`expanded` field is "ECHO:Expand: " followed by the repr of that one-key
dict — the repr of the raw content, not the raw content itself — and the
`analysis` field is "ECHO:Analyze: " followed by exactly the expanded
text.  Stated for raw content made of ASCII characters, the range on which
the repr model agrees with Python exactly (see `pyReprEscapeChar`). -/
theorem echo_stub_prompts_amended (content : String)
    (_hascii : ∀ c ∈ content.data, c.toNat < 128) :
    assocGet (run_analysis BlogGenerator.init (fun p => "ECHO:" ++ p) content).2 "expanded"
        = some (Value.str ("ECHO:Expand: \x7b\x27raw_content\x27: " ++ pyReprStr content ++ "\x7d")) ∧
    assocGet (run_analysis BlogGenerator.init (fun p => "ECHO:" ++ p) content).2 "analysis"
        = some (Value.str ("ECHO:Analyze: ECHO:Expand: \x7b\x27raw_content\x27: " ++ pyReprStr content ++ "\x7d")) :=
  ⟨rfl, rfl⟩

/-- Witness for the amended C6 at the concrete newline-bearing content of
the counterexample. -/
theorem echo_stub_prompts_amended_witness :
    (∀ c ∈ ("A\nB" : String).data, c.toNat < 128) ∧
    assocGet (run_analysis BlogGenerator.init (fun p => "ECHO:" ++ p) "A\nB").2 "expanded"
      = some (Value.str ("ECHO:Expand: \x7b\x27raw_content\x27: " ++ pyReprStr "A\nB" ++ "\x7d")) :=
  ⟨by decide, (echo_stub_prompts_amended "A\nB" (by decide)).1⟩

/-- Claim C2: `MetricAgent.process` degrades to an empty metrics mapping,
without raising, whenever the model output is the empty string or fails to
parse as JSON; on the output text `not valid data` it yields empty metrics,
and on the engagement object text it yields the parsed mapping. -/
theorem metric_stage_degrades_on_unparseable (gen : String → String) (state : PyDict) :
    (gen (metricPrompt state) = "" ∨ json_loads (gen (metricPrompt state)) = none →
      MetricAgent.process gen state = [("metrics", Value.json (Json.obj []))]) ∧
    MetricAgent.process (fun _ => "not valid data") state
        = [("metrics", Value.json (Json.obj []))] ∧
    MetricAgent.process (fun _ => "\x7b\"engagement\": 42\x7d") state
        = [("metrics", Value.json (Json.obj [("engagement", Json.num 42)]))] := by
  refine ⟨?_, rfl, rfl⟩
  intro h
  unfold MetricAgent.process
  by_cases h0 : gen (metricPrompt state) = ""
  · rw [if_pos h0]
  · rcases h with h | h
    · exact absurd h h0
    · rw [if_neg h0, h]

/-- Witness for C2 at the concrete unparseable model output. -/
theorem metric_stage_degrades_on_unparseable_witness :
    json_loads ((fun _ : String => "not valid data") (metricPrompt [])) = none ∧
    MetricAgent.process (fun _ => "not valid data") []
      = [("metrics", Value.json (Json.obj []))] :=
  ⟨rfl, (metric_stage_degrades_on_unparseable (fun _ => "not valid data") []).1 (Or.inr rfl)⟩

/-- Claim C10: a model output of the ExtractMetrics stage that parses as
JSON but is not a mapping is stored as the metrics value unchanged — the
stage neither raises nor degrades it to the empty mapping, so the metrics
field is not guaranteed to be a mapping. -/
theorem metric_stage_stores_nonmapping_values (gen : String → String) (state : PyDict) (v : Json) :
    gen (metricPrompt state) ≠ "" →
    json_loads (gen (metricPrompt state)) = some v →
    MetricAgent.process gen state = [("metrics", Value.json v)] := by
  intro h0 h1
  unfold MetricAgent.process
  rw [if_neg h0, h1]

/-- Witness for C10: the output text `42` is stored as the number 42 and
`[1, 2]` as the two-element array, neither of them a mapping. -/
theorem metric_stage_stores_nonmapping_values_witness :
    MetricAgent.process (fun _ => "42") [] = [("metrics", Value.json (Json.num 42))] ∧
    MetricAgent.process (fun _ => "[1, 2]") []
      = [("metrics", Value.json (Json.arr [Json.num 1, Json.num 2]))] :=
  ⟨metric_stage_stores_nonmapping_values (fun _ => "42") [] (Json.num 42)
      (by decide) rfl,
   metric_stage_stores_nonmapping_values (fun _ => "[1, 2]") [] (Json.arr [Json.num 1, Json.num 2])
      (by decide) rfl⟩

/-- Claim C3: `BaseAgent.request_api` returns the empty string rather than
raising when the response status is not 2xx, when the transport raises, or
when the body fails to parse; being a total function of the embedding, no
error propagates to the caller. -/
theorem request_api_fail_soft (status : Nat) (body : HttpBody) :
    (¬ (200 ≤ status ∧ status ≤ 299) →
      request_api (HttpOutcome.resp status body) = ApiResult.str "") ∧
    request_api HttpOutcome.exn = ApiResult.str "" ∧
    request_api (HttpOutcome.resp status HttpBody.invalid) = ApiResult.str "" := by
  refine ⟨?_, rfl, ?_⟩
  · intro h
    have hne : status ≠ 200 := fun e => h (by subst e; omega)
    simp [request_api, hne]
  · by_cases h : status = 200
    · subst h; rfl
    · simp [request_api, h]

/-- Witness for C3 at a concrete 404 response carrying a valid payload. -/
theorem request_api_fail_soft_witness :
    ¬ (200 ≤ 404 ∧ 404 ≤ 299) ∧
    request_api (HttpOutcome.resp 404 (HttpBody.val (Json.obj [("response", Json.str "ok")])))
      = ApiResult.str "" :=
  ⟨by omega,
   (request_api_fail_soft 404 (HttpBody.val (Json.obj [("response", Json.str "ok")]))).1 (by omega)⟩

/-- Claim C7, counterexample: a 201 response (2xx) whose payload lacks the
response field makes `request_api` return the empty string, not the whole
payload — the source tests `status_code != 200`, not membership in 2xx — so
the claim is false as stated. -/
theorem request_api_2xx_fallback_counterexample :
    (200 ≤ 201 ∧ 201 ≤ 299) ∧
    assocGet [("x", Json.num 1)] "response" = none ∧
    request_api (HttpOutcome.resp 201 (HttpBody.val (Json.obj [("x", Json.num 1)])))
      = ApiResult.str "" ∧
    ApiResult.str "" ≠ ApiResult.json (Json.obj [("x", Json.num 1)]) :=
  ⟨by omega, rfl, rfl, fun h => nomatch h⟩

/-- Claim C7 as amended: for a response with status exactly 200 and a JSON
object payload, `request_api` returns the entire payload when the response
field is absent, and the string value of that field when it is present with
a string value.  (Other 2xx statuses degrade to the empty string, per the
counterexample.) -/
theorem request_api_response_field_fallback (kvs : List (String × Json)) :
    (assocGet kvs "response" = none →
      request_api (HttpOutcome.resp 200 (HttpBody.val (Json.obj kvs)))
        = ApiResult.json (Json.obj kvs)) ∧
    (∀ s, assocGet kvs "response" = some (Json.str s) →
      request_api (HttpOutcome.resp 200 (HttpBody.val (Json.obj kvs)))
        = ApiResult.str s) := by
  constructor
  · intro h
    simp [request_api, h]
  · intro s h
    simp [request_api, h]

/-- Witness for the amended C7 at a concrete payload lacking the response
field. -/
theorem request_api_response_field_fallback_witness :
    assocGet [("x", Json.num 1)] "response" = none ∧
    request_api (HttpOutcome.resp 200 (HttpBody.val (Json.obj [("x", Json.num 1)])))
      = ApiResult.json (Json.obj [("x", Json.num 1)]) :=
  ⟨rfl, (request_api_response_field_fallback [("x", Json.num 1)]).1 rfl⟩

lemma mem_keys_assocSet (d : PyDict) (kn : String) (v : Value) (k : String)
    (h : k ∈ keys d) : k ∈ keys (assocSet d kn v) := by
  induction d with
  | nil => simp [keys] at h
  | cons a rest ih =>
    rcases a with ⟨hk, hv⟩
    simp only [assocSet]
    by_cases he : hk = kn
    · rw [if_pos he]
      simpa [keys] using h
    · rw [if_neg he]
      simp only [keys, List.map_cons, List.mem_cons] at h ⊢
      rcases h with h | h
      · exact Or.inl h
      · exact Or.inr (ih h)

/-- A `dict.update` never loses a key: it only adds or overwrites. -/
lemma mem_keys_pyUpdate (d u : PyDict) (k : String) (h : k ∈ keys d) :
    k ∈ keys (pyUpdate d u) := by
  induction u generalizing d with
  | nil => simpa [pyUpdate] using h
  | cons a rest ih =>
    simpa [pyUpdate, List.foldl_cons] using
      ih (assocSet d a.1 a.2) (mem_keys_assocSet d a.1 a.2 k h)

/-- Claim C8: across every run the key set of the state grows
monotonically — each merge of a partial stage update only adds or
overwrites keys, and no key present before a stage executes is absent
afterwards (stated over consecutive states of the run trace). -/
theorem keys_monotone_along_run (gen : String → String) (content : String) :
    List.Chain' (fun s t => ∀ k, k ∈ keys s → k ∈ keys t) (runTrace gen content) := by
  have hstep : ∀ (s : PyDict) (n : String), ∀ k, k ∈ keys s → k ∈ keys (stepStage gen s n) :=
    fun s n k hk => mem_keys_pyUpdate _ _ _ hk
  unfold runTrace
  rw [show topologicalSort BlogGenerator.init.workflow
        = ["Expand", "Analyze", "Metric", "Final", "Format"] from rfl]
  simp only [scanlStates]
  exact List.chain'_cons.mpr ⟨hstep _ _,
    List.chain'_cons.mpr ⟨hstep _ _,
      List.chain'_cons.mpr ⟨hstep _ _,
        List.chain'_cons.mpr ⟨hstep _ _,
          List.chain'_cons.mpr ⟨hstep _ _, List.Chain.nil⟩⟩⟩⟩⟩

lemma foldl_run_keeps_generator (gen : String → String) :
    ∀ (prior : List String) (g : BlogGenerator),
      prior.foldl (fun h c => (run_analysis h gen c).1) g = g := by
  intro prior
  induction prior with
  | nil => intro g; rfl
  | cons c rest ih => intro g; exact ih g

/-- Claim C9: `run_analysis` holds no state across invocations: the call
leaves the generator object unchanged, and after any sequence of prior
calls a run on the same input text produces the same final state as a run
on a fresh generator. -/
theorem run_analysis_stateless (gen : String → String) (prior : List String) (content : String) :
    (∀ g : BlogGenerator, (run_analysis g gen content).1 = g) ∧
    (run_analysis (prior.foldl (fun h c => (run_analysis h gen c).1) BlogGenerator.init)
        gen content).2
      = (run_analysis BlogGenerator.init gen content).2 := by
  refine ⟨fun g => rfl, ?_⟩
  rw [foldl_run_keeps_generator gen prior BlogGenerator.init]

end RedditBlog
